import Mathlib

/-!
Verification of the l5kit reward / closed-loop-evaluation glue modules:
`l5kit/evaluation/error_functions.py`, `l5kit/environment/reward.py` and
`l5kit/environment/cle_utils.py`, shallowly embedded over the reals.
Tensors and numpy arrays are modelled as lists of reals; Python exceptions
(assertion failures, key/shape errors) are modelled with `Except`.
-/

namespace L5Kit

/-! ### torch.fmod and the error functions (error_functions.py) -/

/-- Truncation toward zero on the reals: the rounding mode used by
`torch.fmod` (C `fmod` semantics). -/
noncomputable def rtrunc (x : ℝ) : ℤ := if 0 ≤ x then ⌊x⌋ else ⌈x⌉

/-- `torch.fmod x y`: the remainder of `x / y` with the quotient rounded
toward zero, so the result carries the sign of `x`. -/
noncomputable def fmod (x y : ℝ) : ℝ := x - y * rtrunc (x / y)

/-- Scalar body of `closest_angle` (error_functions.py lines 29-31):
`wrapped = fmod(angle_b - angle_a, 2*pi); return fmod(2*wrapped, 2*pi) - wrapped`. -/
noncomputable def closestAngleScalar (angle_a angle_b : ℝ) : ℝ :=
  let two_pi := 2 * Real.pi
  let wrapped := fmod (angle_b - angle_a) two_pi
  fmod (2 * wrapped) two_pi - wrapped

/-- `closest_angle` on tensors, modelled as lists applied elementwise; the
shape assertion (`assert angle_a.shape == angle_b.shape`) becomes the length
check, `none` modelling the assertion failure. -/
noncomputable def closest_angle (angle_a angle_b : List ℝ) : Option (List ℝ) :=
  if angle_a.length = angle_b.length then
    some (List.zipWith closestAngleScalar angle_a angle_b)
  else none

/-! ### Reward computation (reward.py)

The simulation dataset and the unroll histories are opaque payloads consumed
only by the external metric set; they are modelled as type parameters
`D`, `U`, `A`. -/

/-- `SimulationOutputCLE(scene_idx, sim_dataset, ego_ins_outs, agents_ins_outs)`:
the per-scene evaluation record handed to the metric set (reward.py line 105). -/
structure SimulationOutputCLE (D U A : Type) where
  scene_id : ℕ
  sim_dataset : D
  ego_ins_outs : U
  agents_ins_outs : A

/-- `RewardInput` (reward.py lines 12-29): the per-step input bundle.
Numpy arrays are lists of reals; the two dictionaries map string keys to
arrays, `none` modelling a missing key. -/
structure RewardInput (D U A : Type) where
  frame_index : ℕ
  scene_indices : List ℕ
  sim_dataset : D
  ego_ins_outs : U
  agents_ins_outs : A
  ego_output_dict : String → Option (List ℝ)
  ego_input_dict : String → Option (List ℝ)

/-- Modelled from the spec: the external metric-evaluation strategy
(`L5MetricSet` / `L5GymCLEMetricSet`, from `l5kit.environment.cle_metricset`,
not part of the sources here). `evaluate` folds a list of per-scene records
into an internal state `σ`; `scene_metric_results st scene metric i` reads
back the per-scene per-metric time series at step `i` after evaluation, with
`none` modelling a missing metric key or out-of-range index (which the source
propagates as a lookup failure, spec section 7). -/
structure L5MetricSet (σ D U A : Type) where
  evaluate : σ → List (SimulationOutputCLE D U A) → σ
  scene_metric_results : σ → ℕ → String → ℕ → Option ℝ

/-- Python exceptions surfacing from the reward path: the
`assert len(scene_indices) == 1` failure, a missing-key / bad-index lookup
failure, and a numpy shape error. -/
inductive RewardErr where
  | assertionFailed
  | lookupFailed
  | shapeMismatch
deriving DecidableEq, Repr

/-- Configuration of `CLE_Reward` (reward.py lines 64-81). The
`reward_prefix` string plays no role in any computation and is omitted. -/
structure CLE_Reward where
  enable_clip : Bool
  rew_clip_thresh : ℝ
  use_yaw : Bool
  yaw_weight : ℝ
  stop_flag : Bool
  stop_thresh : ℝ

/-- `CLE_Reward.get_reward` (reward.py lines 88-125), with the metric-set
state passed explicitly. Returns the metric-set state after the call together
with either an error or the pair `(stop_error, reward)`:
  * assert exactly one scene index, else `assertionFailed` (line 100) with
    the metric state untouched;
  * build one `SimulationOutputCLE` per scene and evaluate (lines 103-106);
  * `scene_idx` after the loop is the last loop value; read the
    displacement-error and yaw-error series at `frame_index + 1`
    (lines 109-111), each failed lookup raising (`lookupFailed`);
  * reward = negative displacement error, clipped below at
    `-rew_clip_thresh` when `enable_clip` (lines 114-116);
  * when `use_yaw`, subtract `yaw_weight * |yaw_error|` (lines 119-120);
  * `stop_error` is set to the raw displacement error (line 123). -/
noncomputable def CLE_Reward.get_reward {σ D U A : Type} (self : CLE_Reward)
    (ms : L5MetricSet σ D U A) (st : σ) (reward_input : RewardInput D U A) :
    σ × Except RewardErr (ℝ × ℝ) :=
  let frame_index := reward_input.frame_index
  let scene_indices := reward_input.scene_indices
  if scene_indices.length = 1 then
    let simulated_outputs : List (SimulationOutputCLE D U A) :=
      scene_indices.map fun scene_idx =>
        ⟨scene_idx, reward_input.sim_dataset, reward_input.ego_ins_outs,
          reward_input.agents_ins_outs⟩
    let st := ms.evaluate st simulated_outputs
    let scene_idx := scene_indices.getLastD 0
    match ms.scene_metric_results st scene_idx "displacement_error_l2"
        (frame_index + 1) with
    | none => (st, .error .lookupFailed)
    | some dist_error =>
      match ms.scene_metric_results st scene_idx "yaw_error_ca"
          (frame_index + 1) with
      | none => (st, .error .lookupFailed)
      | some yaw_raw =>
        let yaw_error := self.yaw_weight * |yaw_raw|
        let reward : ℝ := -dist_error
        let reward := if self.enable_clip then
          max (-self.rew_clip_thresh) (-dist_error) else reward
        let reward := if self.use_yaw then reward - yaw_error else reward
        (st, .ok (dist_error, reward))
  else (st, .error .assertionFailed)

/-- Mutable view of a `CLE_Reward` call site: the metric-set state, the
`stop_error` attribute (absent before the first successful call) and the
`RewardInput` cell handed in by the caller. -/
structure CLE_World (σ D U A : Type) where
  ms_state : σ
  stop_error : Option ℝ
  reward_input : RewardInput D U A

/-- One `get_reward` call as a transition on `CLE_World`: the metric-set
state is always advanced, `stop_error` is written on a successful call, and
the reward (or the raised error) is returned. -/
noncomputable def CLE_Reward.step {σ D U A : Type} (self : CLE_Reward)
    (ms : L5MetricSet σ D U A) (w : CLE_World σ D U A) :
    CLE_World σ D U A × Except RewardErr ℝ :=
  match self.get_reward ms w.ms_state w.reward_input with
  | (st, .ok (se, r)) =>
    ({ w with ms_state := st, stop_error := some se }, .ok r)
  | (st, .error e) => ({ w with ms_state := st }, .error e)

/-- `OLE_Reward.get_reward` (reward.py lines 145-157):
`penalty = np.square(ego_output_dict["positions"] -
ego_input_dict["target_positions"]).mean(); reward = -float(penalty)`.
A missing dictionary key raises (`lookupFailed`); a numpy shape mismatch in
the subtraction raises (`shapeMismatch`). -/
noncomputable def OLE_Reward.get_reward {D U A : Type}
    (reward_input : RewardInput D U A) : Except RewardErr ℝ :=
  match reward_input.ego_output_dict "positions",
      reward_input.ego_input_dict "target_positions" with
  | some pred, some tgt =>
    if pred.length = tgt.length then
      let penalty := (List.zipWith (fun p t => (p - t) ^ 2) pred tgt).sum /
        (pred.length : ℝ)
      .ok (-penalty)
    else .error .shapeMismatch
  | _, _ => .error .lookupFailed

/-- One `OLE_Reward.get_reward` call viewed as a (stateless) transition on
the caller-owned `RewardInput` cell. -/
structure OLE_World (D U A : Type) where
  reward_input : RewardInput D U A

/-- `OLE_Reward` holds no state, so a call leaves the world unchanged and
returns the reward. -/
noncomputable def OLE_Reward.step {D U A : Type} (w : OLE_World D U A) :
    OLE_World D U A × Except RewardErr ℝ :=
  (w, OLE_Reward.get_reward w.reward_input)

/-! ### Closed-loop evaluation utilities (cle_utils.py) -/

/-- Modelled from the spec: the external `ClosedLoopEvaluator`
(`l5kit.cle.closed_loop_evaluator`, not part of the sources here). Its
validation-results store accumulates, per validator/metric name, one entry
per replayed agent; `validation_results()` reads the store and `reset()`
clears it (spec section 4.5). -/
structure ClosedLoopEvaluator where
  validation_results_store : List (String × List Bool)

/-- Modelled from the spec: reading the accumulated validation results. -/
def ClosedLoopEvaluator.validation_results (ev : ClosedLoopEvaluator) :
    List (String × List Bool) :=
  ev.validation_results_store

/-- Modelled from the spec: `reset` clears the accumulation state. -/
def ClosedLoopEvaluator.reset (_ev : ClosedLoopEvaluator) :
    ClosedLoopEvaluator :=
  { validation_results_store := [] }

/-- Modelled from the spec: `ValidationCountingAggregator.aggregate` turns
the per-name result lists into per-name counts across all replayed agents. -/
def aggregateCounts (log : List (String × List Bool)) : List (String × ℕ) :=
  log.map fun p => (p.1, p.2.length)

/-- `aggregate_cle_metrics` (cle_utils.py lines 31-40): read the validation
results, aggregate counts, reset the evaluator, and render one table row
`(metric_name, count)` per aggregated metric to standard output. Returns
the reset evaluator together with the rendered rows. -/
def aggregate_cle_metrics (cle_evaluator : ClosedLoopEvaluator) :
    ClosedLoopEvaluator × List (String × ℕ) :=
  let validation_results_log := cle_evaluator.validation_results
  let agg_log := aggregateCounts validation_results_log
  let cle_evaluator := cle_evaluator.reset
  (cle_evaluator, agg_log.map fun p => (p.1, p.2))

/-! ### Helper lemmas on `rtrunc` and `fmod` -/

theorem rtrunc_neg (x : ℝ) : rtrunc (-x) = -rtrunc x := by
  unfold rtrunc
  rcases lt_trichotomy x 0 with hx | hx | hx
  · rw [if_neg (not_le.mpr hx), if_pos (by linarith : (0:ℝ) ≤ -x), Int.floor_neg]
  · simp [hx]
  · rw [if_pos hx.le, if_neg (by simpa using hx), Int.ceil_neg]

theorem fmod_neg_left (x y : ℝ) : fmod (-x) y = -fmod x y := by
  unfold fmod
  rw [neg_div, rtrunc_neg]
  push_cast
  ring

theorem rtrunc_eq_zero {x : ℝ} (h1 : -1 < x) (h2 : x < 1) : rtrunc x = 0 := by
  unfold rtrunc
  rcases le_or_lt 0 x with hx | hx
  · rw [if_pos hx, Int.floor_eq_zero_iff]
    exact ⟨hx, h2⟩
  · rw [if_neg (not_le.mpr hx), Int.ceil_eq_zero_iff]
    exact ⟨h1, hx.le⟩

theorem fmod_zero_left (y : ℝ) : fmod 0 y = 0 := by
  simp [fmod, rtrunc]

/-- If `-y < x < y` (with `0 < y`) then `fmod x y = x`. -/
theorem fmod_eq_self {x y : ℝ} (hy : 0 < y) (h1 : -y < x) (h2 : x < y) :
    fmod x y = x := by
  have hz : rtrunc (x / y) = 0 := by
    refine rtrunc_eq_zero ?_ ?_
    · rw [lt_div_iff₀ hy]; linarith
    · rw [div_lt_one hy]; exact h2
  simp [fmod, hz]

/-- If `y ≤ x < 2y` (with `0 < y`) then `fmod x y = x - y`. -/
theorem fmod_eq_sub {x y : ℝ} (hy : 0 < y) (h1 : y ≤ x) (h2 : x < 2 * y) :
    fmod x y = x - y := by
  have hnn : (0:ℝ) ≤ x / y := div_nonneg (le_trans hy.le h1) hy.le
  have hfl : ⌊x / y⌋ = 1 := by
    rw [Int.floor_eq_iff]
    constructor
    · push_cast
      rw [le_div_iff₀ hy]; linarith
    · push_cast
      rw [div_lt_iff₀ hy]; linarith
  have hz : rtrunc (x / y) = 1 := by
    unfold rtrunc; rw [if_pos hnn, hfl]
  rw [fmod, hz]; push_cast; ring

/-- If `-2y < x ≤ -y` (with `0 < y`) then `fmod x y = x + y`. -/
theorem fmod_eq_add {x y : ℝ} (hy : 0 < y) (h1 : -(2 * y) < x) (h2 : x ≤ -y) :
    fmod x y = x + y := by
  have hneg : x / y < 0 := div_neg_of_neg_of_pos (by linarith) hy
  have hcl : ⌈x / y⌉ = -1 := by
    rw [Int.ceil_eq_iff]
    constructor
    · push_cast
      rw [lt_div_iff₀ hy]; linarith
    · push_cast
      rw [div_le_iff₀ hy]; linarith
  have hz : rtrunc (x / y) = -1 := by
    unfold rtrunc; rw [if_neg (not_le.mpr hneg), hcl]
  rw [fmod, hz]; push_cast; ring

/-- For `0 ≤ x` and `0 < y`, `fmod x y` lies in `[0, y)`. -/
theorem fmod_nonneg_lt {x y : ℝ} (hy : 0 < y) (hx : 0 ≤ x) :
    0 ≤ fmod x y ∧ fmod x y < y := by
  have hnn : (0:ℝ) ≤ x / y := div_nonneg hx hy.le
  have hb : rtrunc (x / y) = ⌊x / y⌋ := by unfold rtrunc; rw [if_pos hnn]
  have hkey : fmod x y = y * Int.fract (x / y) := by
    rw [fmod, hb, Int.fract]
    field_simp
  constructor
  · rw [hkey]; exact mul_nonneg hy.le (Int.fract_nonneg _)
  · rw [hkey]
    calc y * Int.fract (x / y) < y * 1 :=
          (mul_lt_mul_left hy).mpr (Int.fract_lt_one _)
      _ = y := mul_one y

/-- For `0 < y`, `fmod x y` lies in `(-y, y)`. -/
theorem fmod_bounds {x y : ℝ} (hy : 0 < y) : -y < fmod x y ∧ fmod x y < y := by
  rcases le_or_lt 0 x with hx | hx
  · obtain ⟨h1, h2⟩ := fmod_nonneg_lt hy hx
    exact ⟨by linarith, h2⟩
  · have hx' : 0 ≤ -x := by linarith
    obtain ⟨h1, h2⟩ := fmod_nonneg_lt hy hx'
    have : fmod x y = -fmod (-x) y := by rw [← fmod_neg_left, neg_neg]
    constructor <;> rw [this] <;> linarith

/-! ### Properties of `closestAngleScalar` -/

theorem closestAngleScalar_def (a b : ℝ) :
    closestAngleScalar a b =
      fmod (2 * fmod (b - a) (2 * Real.pi)) (2 * Real.pi) -
        fmod (b - a) (2 * Real.pi) := rfl

theorem closestAngleScalar_self (a : ℝ) : closestAngleScalar a a = 0 := by
  rw [closestAngleScalar_def, sub_self, fmod_zero_left, mul_zero,
    fmod_zero_left, sub_zero]

theorem closestAngleScalar_anti (a b : ℝ) :
    closestAngleScalar b a = -closestAngleScalar a b := by
  rw [closestAngleScalar_def, closestAngleScalar_def,
    show a - b = -(b - a) by ring, fmod_neg_left, mul_neg, fmod_neg_left]
  ring

/-- The scalar angle difference always lands in the closed interval
`[-pi, pi]`; both endpoints are attained. -/
theorem closestAngleScalar_bounds (a b : ℝ) :
    -Real.pi ≤ closestAngleScalar a b ∧ closestAngleScalar a b ≤ Real.pi := by
  have hpi := Real.pi_pos
  have h2pi : (0:ℝ) < 2 * Real.pi := by linarith
  obtain ⟨hwl, hwu⟩ := fmod_bounds (x := b - a) h2pi
  set w := fmod (b - a) (2 * Real.pi) with hw
  rw [closestAngleScalar_def, ← hw]
  rcases le_or_lt w (-Real.pi) with hc | hc
  · have he : fmod (2 * w) (2 * Real.pi) = 2 * w + 2 * Real.pi :=
      fmod_eq_add h2pi (by linarith) (by linarith)
    rw [he]; constructor <;> linarith
  · rcases lt_or_le w Real.pi with hc2 | hc2
    · have he : fmod (2 * w) (2 * Real.pi) = 2 * w :=
        fmod_eq_self h2pi (by linarith) (by linarith)
      rw [he]; constructor <;> linarith
    · have he : fmod (2 * w) (2 * Real.pi) = 2 * w - 2 * Real.pi :=
        fmod_eq_sub h2pi (by linarith) (by linarith)
      rw [he]; constructor <;> linarith

theorem mem_zipWith_closestAngle_bounds :
    ∀ a b : List ℝ, ∀ x ∈ List.zipWith closestAngleScalar a b,
      -Real.pi ≤ x ∧ x ≤ Real.pi := by
  intro a
  induction a with
  | nil => intro b x hx; simp at hx
  | cons p ps ih =>
    intro b x hx
    cases b with
    | nil => simp at hx
    | cons q qs =>
      rw [List.zipWith_cons_cons] at hx
      rcases List.mem_cons.mp hx with h | h
      · subst h; exact closestAngleScalar_bounds p q
      · exact ih qs x h

theorem zipWith_closestAngle_anti : ∀ a b : List ℝ,
    List.zipWith closestAngleScalar b a =
      List.map (fun x => -x) (List.zipWith closestAngleScalar a b) := by
  intro a
  induction a with
  | nil => intro b; cases b <;> simp
  | cons p ps ih =>
    intro b
    cases b with
    | nil => simp
    | cons q qs =>
      rw [List.zipWith_cons_cons, List.zipWith_cons_cons, List.map_cons,
        closestAngleScalar_anti p q, ih qs]

/-! ### Claim theorems about `closest_angle` -/

/-- C2 (counterexample): the claim says the result of `closest_angle` is
always strictly greater than `-pi`; but at `a = [0]`, `b = [pi]` the code
returns exactly `[-pi]`, which is not strictly greater than `-pi`. -/
theorem closest_angle_open_range_cex :
    closest_angle [0] [Real.pi] = some [-Real.pi] ∧
      ¬ (-Real.pi < -Real.pi) := by
  have hpi := Real.pi_pos
  have h2pi : (0:ℝ) < 2 * Real.pi := by linarith
  constructor
  · have hw : fmod (Real.pi - 0) (2 * Real.pi) = Real.pi := by
      rw [sub_zero]
      exact fmod_eq_self h2pi (by linarith) (by linarith)
    have h2 : fmod (2 * Real.pi) (2 * Real.pi) = 0 := by
      rw [fmod_eq_sub h2pi (le_refl _) (by linarith)]; ring
    have hscal : closestAngleScalar 0 Real.pi = -Real.pi := by
      rw [closestAngleScalar_def, hw, h2]; ring
    unfold closest_angle
    simp only [List.length_singleton, if_true]
    rw [List.zipWith_cons_cons, List.zipWith_nil_right, hscal]
  · exact lt_irrefl _

/-- C2 (amended): for equally-shaped inputs, every entry of the result of
`closest_angle` lies in the closed interval `[-pi, pi]` (the lower endpoint
`-pi` is attained, so the half-open interval of the claim is too strong). -/
theorem closest_angle_range (a b out : List ℝ)
    (h : closest_angle a b = some out) :
    ∀ x ∈ out, -Real.pi ≤ x ∧ x ≤ Real.pi := by
  unfold closest_angle at h
  by_cases hl : a.length = b.length
  · rw [if_pos hl] at h
    obtain rfl : List.zipWith closestAngleScalar a b = out :=
      Option.some.inj h
    exact mem_zipWith_closestAngle_bounds a b
  · rw [if_neg hl] at h
    exact absurd h (by simp)

theorem closest_angle_range_witness :
    closest_angle [0] [0] = some [0] ∧
      ((0:ℝ) ∈ [(0:ℝ)] ∧ (-Real.pi ≤ (0:ℝ) ∧ (0:ℝ) ≤ Real.pi)) := by
  have h : closest_angle [0] [0] = some [0] := by
    unfold closest_angle
    rw [if_pos rfl, List.zipWith_cons_cons, List.zipWith_nil_right,
      closestAngleScalar_self]
  exact ⟨h, List.mem_singleton.mpr rfl,
    closest_angle_range [0] [0] [0] h 0 (List.mem_singleton.mpr rfl)⟩

/-- C7: `closest_angle` is antisymmetric — swapping the arguments negates
the result elementwise (also when the shape assertion fires, both directions
fail) — and `closest_angle a a` is the all-zero tensor. -/
theorem closest_angle_antisymm (a b : List ℝ) :
    closest_angle b a = (closest_angle a b).map (List.map fun x => -x) ∧
      closest_angle a a = some (List.map (fun _ => (0:ℝ)) a) := by
  constructor
  · unfold closest_angle
    by_cases hl : a.length = b.length
    · rw [if_pos hl.symm, if_pos hl]
      exact congrArg some (zipWith_closestAngle_anti a b)
    · rw [if_neg (fun hh => hl hh.symm), if_neg hl]
      rfl
  · unfold closest_angle
    rw [if_pos rfl]
    rw [List.zipWith_same]
    exact congrArg some
      (List.map_congr_left fun x _ => closestAngleScalar_self x)

/-! ### Helper lemmas about `CLE_Reward.get_reward` -/

theorem singleton_getLastD (s d : ℕ) : List.getLastD [s] d = s := rfl

/-- Evaluation of `get_reward` on a single-scene input whose two metric
lookups succeed. -/
theorem get_reward_single_eval {σ D U A : Type} (self : CLE_Reward)
    (ms : L5MetricSet σ D U A) (st : σ) (ri : RewardInput D U A)
    (s : ℕ) (d y : ℝ) (hs : ri.scene_indices = [s])
    (hd : ms.scene_metric_results
        (ms.evaluate st [⟨s, ri.sim_dataset, ri.ego_ins_outs, ri.agents_ins_outs⟩])
        s "displacement_error_l2" (ri.frame_index + 1) = some d)
    (hy : ms.scene_metric_results
        (ms.evaluate st [⟨s, ri.sim_dataset, ri.ego_ins_outs, ri.agents_ins_outs⟩])
        s "yaw_error_ca" (ri.frame_index + 1) = some y) :
    self.get_reward ms st ri =
      (ms.evaluate st [⟨s, ri.sim_dataset, ri.ego_ins_outs, ri.agents_ins_outs⟩],
        Except.ok (d,
          if self.use_yaw then
            (if self.enable_clip then max (-self.rew_clip_thresh) (-d) else -d)
              - self.yaw_weight * |y|
          else
            if self.enable_clip then max (-self.rew_clip_thresh) (-d) else -d)) := by
  unfold CLE_Reward.get_reward
  rw [hs]
  simp only [List.length_singleton, List.map_cons, List.map_nil,
    singleton_getLastD, if_true]
  rw [hd, hy]

/-- Evaluation of `get_reward` when the displacement-error lookup fails. -/
theorem get_reward_dist_missing {σ D U A : Type} (self : CLE_Reward)
    (ms : L5MetricSet σ D U A) (st : σ) (ri : RewardInput D U A)
    (s : ℕ) (hs : ri.scene_indices = [s])
    (hd : ms.scene_metric_results
        (ms.evaluate st [⟨s, ri.sim_dataset, ri.ego_ins_outs, ri.agents_ins_outs⟩])
        s "displacement_error_l2" (ri.frame_index + 1) = none) :
    self.get_reward ms st ri =
      (ms.evaluate st [⟨s, ri.sim_dataset, ri.ego_ins_outs, ri.agents_ins_outs⟩],
        Except.error RewardErr.lookupFailed) := by
  unfold CLE_Reward.get_reward
  rw [hs]
  simp only [List.length_singleton, List.map_cons, List.map_nil,
    singleton_getLastD, if_true]
  rw [hd]

/-- Evaluation of `get_reward` when the displacement-error lookup succeeds
but the yaw-error lookup fails. -/
theorem get_reward_yaw_missing {σ D U A : Type} (self : CLE_Reward)
    (ms : L5MetricSet σ D U A) (st : σ) (ri : RewardInput D U A)
    (s : ℕ) (d : ℝ) (hs : ri.scene_indices = [s])
    (hd : ms.scene_metric_results
        (ms.evaluate st [⟨s, ri.sim_dataset, ri.ego_ins_outs, ri.agents_ins_outs⟩])
        s "displacement_error_l2" (ri.frame_index + 1) = some d)
    (hy : ms.scene_metric_results
        (ms.evaluate st [⟨s, ri.sim_dataset, ri.ego_ins_outs, ri.agents_ins_outs⟩])
        s "yaw_error_ca" (ri.frame_index + 1) = none) :
    self.get_reward ms st ri =
      (ms.evaluate st [⟨s, ri.sim_dataset, ri.ego_ins_outs, ri.agents_ins_outs⟩],
        Except.error RewardErr.lookupFailed) := by
  unfold CLE_Reward.get_reward
  rw [hs]
  simp only [List.length_singleton, List.map_cons, List.map_nil,
    singleton_getLastD, if_true]
  rw [hd, hy]

/-! ### Claim theorems about the reward strategies -/

/-- C1: with `use_yaw = false` and clipping enabled, on a single-scene input
whose displacement-error series at `frame_index + 1` is `d`, `get_reward`
returns exactly `max (-rew_clip_thresh) (-d)`; in particular the reward is
never below `-rew_clip_thresh`. -/
theorem cle_reward_noyaw_clipped {σ D U A : Type} (self : CLE_Reward)
    (ms : L5MetricSet σ D U A) (st : σ) (ri : RewardInput D U A)
    (hclip : self.enable_clip = true) (hyaw : self.use_yaw = false)
    (s : ℕ) (d y : ℝ) (hs : ri.scene_indices = [s])
    (hd : ms.scene_metric_results
        (ms.evaluate st [⟨s, ri.sim_dataset, ri.ego_ins_outs, ri.agents_ins_outs⟩])
        s "displacement_error_l2" (ri.frame_index + 1) = some d)
    (hy : ms.scene_metric_results
        (ms.evaluate st [⟨s, ri.sim_dataset, ri.ego_ins_outs, ri.agents_ins_outs⟩])
        s "yaw_error_ca" (ri.frame_index + 1) = some y) :
    (self.get_reward ms st ri).2 =
        Except.ok (d, max (-self.rew_clip_thresh) (-d)) ∧
      -self.rew_clip_thresh ≤ max (-self.rew_clip_thresh) (-d) := by
  constructor
  · rw [get_reward_single_eval self ms st ri s d y hs hd hy]
    simp [hclip, hyaw]
  · exact le_max_left _ _

theorem cle_reward_noyaw_clipped_witness :
    (((CLE_Reward.mk true 15 false 3 false 20).get_reward
        (L5MetricSet.mk (σ := Unit) (D := Unit) (U := Unit) (A := Unit)
          (fun st _ => st) (fun _ _ _ _ => some 20)) ()
        (RewardInput.mk 0 [0] () () () (fun _ => none) (fun _ => none))).2 =
      Except.ok ((20:ℝ), max (-(15:ℝ)) (-20)) ∧
      -(15:ℝ) ≤ max (-(15:ℝ)) (-20)) :=
  cle_reward_noyaw_clipped (CLE_Reward.mk true 15 false 3 false 20)
    (L5MetricSet.mk (fun st _ => st) (fun _ _ _ _ => some 20)) ()
    (RewardInput.mk 0 [0] () () () (fun _ => none) (fun _ => none))
    rfl rfl 0 20 20 rfl rfl rfl

/-- C3: `get_reward` fails its precondition assertion whenever the
scene-index list has length different from 1 — returning the assertion
failure with the metric state untouched, so before any metric evaluation —
and with exactly one scene index the assertion never fires. -/
theorem cle_reward_assertion {σ D U A : Type} (self : CLE_Reward)
    (ms : L5MetricSet σ D U A) (st : σ) (ri : RewardInput D U A) :
    (ri.scene_indices.length ≠ 1 →
      self.get_reward ms st ri = (st, Except.error RewardErr.assertionFailed)) ∧
    (ri.scene_indices.length = 1 →
      (self.get_reward ms st ri).2 ≠ Except.error RewardErr.assertionFailed) := by
  constructor
  · intro h
    unfold CLE_Reward.get_reward
    rw [if_neg h]
  · intro h
    obtain ⟨s, hs⟩ := List.length_eq_one.mp h
    cases hde : ms.scene_metric_results
        (ms.evaluate st [⟨s, ri.sim_dataset, ri.ego_ins_outs,
          ri.agents_ins_outs⟩])
        s "displacement_error_l2" (ri.frame_index + 1) with
    | none =>
      rw [get_reward_dist_missing self ms st ri s hs hde]
      simp
    | some dval =>
      cases hye : ms.scene_metric_results
          (ms.evaluate st [⟨s, ri.sim_dataset, ri.ego_ins_outs,
            ri.agents_ins_outs⟩])
          s "yaw_error_ca" (ri.frame_index + 1) with
      | none =>
        rw [get_reward_yaw_missing self ms st ri s dval hs hde hye]
        simp
      | some yval =>
        rw [get_reward_single_eval self ms st ri s dval yval hs hde hye]
        simp

theorem cle_reward_assertion_witness :
    ((CLE_Reward.mk true 15 true 3 false 20).get_reward
        (L5MetricSet.mk (σ := Unit) (D := Unit) (U := Unit) (A := Unit)
          (fun st _ => st) (fun _ _ _ _ => some 20)) ()
        (RewardInput.mk 0 [0, 1] () () () (fun _ => none) (fun _ => none)) =
      ((), Except.error RewardErr.assertionFailed)) ∧
    (((CLE_Reward.mk true 15 true 3 false 20).get_reward
        (L5MetricSet.mk (σ := Unit) (D := Unit) (U := Unit) (A := Unit)
          (fun st _ => st) (fun _ _ _ _ => some 20)) ()
        (RewardInput.mk 0 [0] () () () (fun _ => none) (fun _ => none))).2 ≠
      Except.error RewardErr.assertionFailed) :=
  ⟨(cle_reward_assertion (CLE_Reward.mk true 15 true 3 false 20)
      (L5MetricSet.mk (fun st _ => st) (fun _ _ _ _ => some 20)) ()
      (RewardInput.mk 0 [0, 1] () () () (fun _ => none) (fun _ => none))).1
        (by decide),
    (cle_reward_assertion (CLE_Reward.mk true 15 true 3 false 20)
      (L5MetricSet.mk (fun st _ => st) (fun _ _ _ _ => some 20)) ()
      (RewardInput.mk 0 [0] () () () (fun _ => none) (fun _ => none))).2 rfl⟩

/-- C4: with `use_yaw = true`, on a single-scene input with displacement
error `d` and yaw error `y` at `frame_index + 1`, `get_reward` returns the
(possibly clipped) negative displacement error minus
`yaw_weight * |y|`. -/
theorem cle_reward_yaw_penalty {σ D U A : Type} (self : CLE_Reward)
    (ms : L5MetricSet σ D U A) (st : σ) (ri : RewardInput D U A)
    (hyaw : self.use_yaw = true)
    (s : ℕ) (d y : ℝ) (hs : ri.scene_indices = [s])
    (hd : ms.scene_metric_results
        (ms.evaluate st [⟨s, ri.sim_dataset, ri.ego_ins_outs, ri.agents_ins_outs⟩])
        s "displacement_error_l2" (ri.frame_index + 1) = some d)
    (hy : ms.scene_metric_results
        (ms.evaluate st [⟨s, ri.sim_dataset, ri.ego_ins_outs, ri.agents_ins_outs⟩])
        s "yaw_error_ca" (ri.frame_index + 1) = some y) :
    (self.get_reward ms st ri).2 =
      Except.ok (d,
        (if self.enable_clip then max (-self.rew_clip_thresh) (-d) else -d)
          - self.yaw_weight * |y|) := by
  rw [get_reward_single_eval self ms st ri s d y hs hd hy]
  simp [hyaw]

theorem cle_reward_yaw_penalty_witness :
    ((CLE_Reward.mk true 15 true 3 false 20).get_reward
        (L5MetricSet.mk (σ := Unit) (D := Unit) (U := Unit) (A := Unit)
          (fun st _ => st) (fun _ _ _ _ => some 2)) ()
        (RewardInput.mk 0 [0] () () () (fun _ => none) (fun _ => none))).2 =
      Except.ok ((2:ℝ),
        (if true then max (-(15:ℝ)) (-2) else -2) - 3 * |(2:ℝ)|) :=
  cle_reward_yaw_penalty (CLE_Reward.mk true 15 true 3 false 20)
    (L5MetricSet.mk (fun st _ => st) (fun _ _ _ _ => some 2)) ()
    (RewardInput.mk 0 [0] () () () (fun _ => none) (fun _ => none))
    rfl 0 2 2 rfl rfl rfl

/-- C8: every successful `get_reward` call writes the raw (unclipped,
pre-yaw-penalty) displacement error at `frame_index + 1` into the
`stop_error` attribute, for every configuration (in particular for both
values of `stop_flag`). -/
theorem cle_reward_stop_error {σ D U A : Type} (self : CLE_Reward)
    (ms : L5MetricSet σ D U A) (w : CLE_World σ D U A)
    (s : ℕ) (d y : ℝ) (hs : w.reward_input.scene_indices = [s])
    (hd : ms.scene_metric_results
        (ms.evaluate w.ms_state [⟨s, w.reward_input.sim_dataset,
          w.reward_input.ego_ins_outs, w.reward_input.agents_ins_outs⟩])
        s "displacement_error_l2" (w.reward_input.frame_index + 1) = some d)
    (hy : ms.scene_metric_results
        (ms.evaluate w.ms_state [⟨s, w.reward_input.sim_dataset,
          w.reward_input.ego_ins_outs, w.reward_input.agents_ins_outs⟩])
        s "yaw_error_ca" (w.reward_input.frame_index + 1) = some y) :
    (self.step ms w).1.stop_error = some d := by
  unfold CLE_Reward.step
  rw [get_reward_single_eval self ms w.ms_state w.reward_input s d y hs hd hy]

theorem cle_reward_stop_error_witness :
    ((CLE_Reward.mk false 15 false 3 true 20).step
        (L5MetricSet.mk (σ := Unit) (D := Unit) (U := Unit) (A := Unit)
          (fun st _ => st) (fun _ _ _ _ => some 20))
        (CLE_World.mk () none
          (RewardInput.mk 0 [0] () () () (fun _ => none)
            (fun _ => none)))).1.stop_error = some 20 :=
  cle_reward_stop_error (CLE_Reward.mk false 15 false 3 true 20)
    (L5MetricSet.mk (fun st _ => st) (fun _ _ _ _ => some 20))
    (CLE_World.mk () none
      (RewardInput.mk 0 [0] () () () (fun _ => none) (fun _ => none)))
    0 20 20 rfl rfl rfl

/-- C9: neither reward variant mutates its `RewardInput`: the input cell of
the world is unchanged by a `get_reward` call of either variant. -/
theorem reward_input_not_mutated {σ D U A : Type} (self : CLE_Reward)
    (ms : L5MetricSet σ D U A) (w : CLE_World σ D U A)
    (w2 : OLE_World D U A) :
    (self.step ms w).1.reward_input = w.reward_input ∧
      (OLE_Reward.step w2).1.reward_input = w2.reward_input := by
  constructor
  · unfold CLE_Reward.step
    split <;> rfl
  · rfl

/-- C10: the yaw-error series at `frame_index + 1` is read on every
single-scene `get_reward` call, before the `use_yaw` branch: a missing
yaw-error metric makes the call fail with a lookup error for every
configuration, in particular also when `use_yaw = false`. -/
theorem cle_reward_yaw_lookup_required {σ D U A : Type} (self : CLE_Reward)
    (ms : L5MetricSet σ D U A) (st : σ) (ri : RewardInput D U A)
    (s : ℕ) (d : ℝ) (hs : ri.scene_indices = [s])
    (hd : ms.scene_metric_results
        (ms.evaluate st [⟨s, ri.sim_dataset, ri.ego_ins_outs, ri.agents_ins_outs⟩])
        s "displacement_error_l2" (ri.frame_index + 1) = some d)
    (hy : ms.scene_metric_results
        (ms.evaluate st [⟨s, ri.sim_dataset, ri.ego_ins_outs, ri.agents_ins_outs⟩])
        s "yaw_error_ca" (ri.frame_index + 1) = none) :
    self.get_reward ms st ri =
      (ms.evaluate st [⟨s, ri.sim_dataset, ri.ego_ins_outs, ri.agents_ins_outs⟩],
        Except.error RewardErr.lookupFailed) :=
  get_reward_yaw_missing self ms st ri s d hs hd hy

theorem cle_reward_yaw_lookup_required_witness :
    (CLE_Reward.mk true 15 false 3 false 20).get_reward
        (L5MetricSet.mk (σ := Unit) (D := Unit) (U := Unit) (A := Unit)
          (fun st _ => st)
          (fun _ _ name _ =>
            if name = "displacement_error_l2" then some 20 else none)) ()
        (RewardInput.mk 0 [0] () () () (fun _ => none) (fun _ => none)) =
      ((), Except.error RewardErr.lookupFailed) :=
  cle_reward_yaw_lookup_required (CLE_Reward.mk true 15 false 3 false 20)
    (L5MetricSet.mk (fun st _ => st)
      (fun _ _ name _ =>
        if name = "displacement_error_l2" then some 20 else none)) ()
    (RewardInput.mk 0 [0] () () () (fun _ => none) (fun _ => none))
    0 20 rfl (by simp) (by simp)

/-- C5: the open-loop reward is never positive; with the predicted and
target position arrays both present and equally shaped it equals the
negated mean of squared elementwise differences, and with identical
arrays it is exactly 0. -/
theorem ole_reward_mse {D U A : Type} :
    (∀ (ri : RewardInput D U A) (r : ℝ),
      OLE_Reward.get_reward ri = Except.ok r → r ≤ 0) ∧
    (∀ (ri : RewardInput D U A) (pred tgt : List ℝ),
      ri.ego_output_dict "positions" = some pred →
      ri.ego_input_dict "target_positions" = some tgt →
      pred.length = tgt.length →
      OLE_Reward.get_reward ri =
        Except.ok (-((List.zipWith (fun p t => (p - t) ^ 2) pred tgt).sum /
          (pred.length : ℝ)))) ∧
    (∀ (ri : RewardInput D U A) (pred : List ℝ),
      ri.ego_output_dict "positions" = some pred →
      ri.ego_input_dict "target_positions" = some pred →
      OLE_Reward.get_reward ri = Except.ok 0) := by
  have hsum : ∀ l1 l2 : List ℝ,
      0 ≤ (List.zipWith (fun p t => (p - t) ^ 2) l1 l2).sum := by
    intro l1
    induction l1 with
    | nil => intro l2; simp
    | cons p ps ih =>
      intro l2
      cases l2 with
      | nil => simp
      | cons t ts =>
        rw [List.zipWith_cons_cons, List.sum_cons]
        exact add_nonneg (sq_nonneg _) (ih ts)
  have heval : ∀ (ri : RewardInput D U A) (pred tgt : List ℝ),
      ri.ego_output_dict "positions" = some pred →
      ri.ego_input_dict "target_positions" = some tgt →
      pred.length = tgt.length →
      OLE_Reward.get_reward ri =
        Except.ok (-((List.zipWith (fun p t => (p - t) ^ 2) pred tgt).sum /
          (pred.length : ℝ))) := by
    intro ri pred tgt hp ht hlen
    unfold OLE_Reward.get_reward
    rw [hp, ht]
    simp only [hlen, if_true]
  refine ⟨?_, heval, ?_⟩
  · intro ri r hr
    cases hp : ri.ego_output_dict "positions" with
    | none => exact absurd hr (by simp [OLE_Reward.get_reward, hp])
    | some pred =>
      cases ht : ri.ego_input_dict "target_positions" with
      | none => exact absurd hr (by simp [OLE_Reward.get_reward, hp, ht])
      | some tgt =>
        by_cases hlen : pred.length = tgt.length
        · rw [heval ri pred tgt hp ht hlen] at hr
          obtain rfl : _ = r := Except.ok.inj hr
          have h1 := hsum pred tgt
          have h2 : (0:ℝ) ≤ (pred.length : ℝ) := Nat.cast_nonneg _
          have := div_nonneg h1 h2
          linarith
        · exact absurd hr (by simp [OLE_Reward.get_reward, hp, ht, hlen])
  · intro ri pred hp ht
    rw [heval ri pred pred hp ht rfl]
    have hz : List.zipWith (fun p t => (p - t) ^ 2) pred pred =
        List.map (fun _ => (0:ℝ)) pred := by
      rw [List.zipWith_same]
      exact List.map_congr_left fun x _ => by ring
    rw [hz]
    simp

theorem ole_reward_mse_witness :
    OLE_Reward.get_reward
      (RewardInput.mk (D := Unit) (U := Unit) (A := Unit) 0 [0] () () ()
        (fun _ => some [3, 4]) (fun _ => some [3, 4])) = Except.ok 0 :=
  ole_reward_mse.2.2
    (RewardInput.mk 0 [0] () () () (fun _ => some [3, 4])
      (fun _ => some [3, 4])) [3, 4] rfl rfl

/-- C6: `aggregate_cle_metrics` leaves the evaluator's validation-results
store empty, while the rows it renders are the counts aggregated from the
validation results accumulated before the reset. -/
theorem aggregate_cle_metrics_spec (ev : ClosedLoopEvaluator) :
    (aggregate_cle_metrics ev).1.validation_results_store = [] ∧
      (aggregate_cle_metrics ev).2 =
        aggregateCounts ev.validation_results_store := by
  constructor
  · rfl
  · show (aggregateCounts ev.validation_results_store).map
        (fun p => (p.1, p.2)) = aggregateCounts ev.validation_results_store
    rw [show (fun p : String × ℕ => (p.1, p.2)) = id from rfl, List.map_id]

end L5Kit
